import Mathlib

/-!
# Verification of the zoom-ratio coordinate mapper

Shallow embedding of `common/hal/utils/zoom_ratio_mapper.cc` from the
AOSP google camera HAL.  Machine `float` arithmetic is modelled exactly
over `ℚ`; `std::round` (round half away from zero) is `roundHalfAway`.
The helpers `utils::RevertZoomRatio`, `utils::CorrectRegionBoundary` and
the point overload of `utils::RevertZoomRatio` live in
`common/hal/utils/utils.cc`, which is not part of the provided sources;
those three definitions are modelled from the specification text and
are marked as such in their doc comments.
-/

namespace GoogleCameraHal

/-- `std::round`: nearest integer, halfway cases away from zero. -/
def roundHalfAway (q : ℚ) : ℤ :=
  if 0 ≤ q then ⌊q + 1/2⌋ else ⌈q - 1/2⌉

/-- `Dimension` from the HAL types: size of an active pixel array. -/
structure Dimension where
  width : ℤ
  height : ℤ
  deriving DecidableEq, Repr

/-- A rectangle in the left/top/width/height form used by
`ANDROID_SCALER_CROP_REGION` and by the transform routines. -/
structure RectLTWH where
  left : ℤ
  top : ℤ
  width : ℤ
  height : ℤ
  deriving DecidableEq, Repr

/-- The rounding step of `ZoomRatioMapper::ConvertZoomRatio`
(zoom_ratio_mapper.cc lines 258–263):
`*left = std::round(*left / zoom_ratio + 0.5f * active_array_dimension.width * (1.0f - 1.0f / zoom_ratio))`
and similarly for top/width/height. -/
def convertZoomRatioRaw (zoom_ratio : ℚ) (r : RectLTWH) (d : Dimension) : RectLTWH where
  left := roundHalfAway ((r.left : ℚ) / zoom_ratio +
    1/2 * (d.width : ℚ) * (1 - 1 / zoom_ratio))
  top := roundHalfAway ((r.top : ℚ) / zoom_ratio +
    1/2 * (d.height : ℚ) * (1 - 1 / zoom_ratio))
  width := roundHalfAway ((r.width : ℚ) / zoom_ratio)
  height := roundHalfAway ((r.height : ℚ) / zoom_ratio)

/-- Modelled from the spec: `utils::CorrectRegionBoundary` is called by
`ConvertZoomRatio` but its body (common/hal/utils/utils.cc) is not among
the provided sources.  The spec: "clamp left/top so left≥0, top≥0, and
clamp width/height so left+width ≤ activeWidth and top+height ≤
activeHeight (shifting position first, then shrinking size only if
still out of bounds)". -/
def correctRegionBoundary (r : RectLTWH) (bound_w bound_h : ℤ) : RectLTWH :=
  let l := max r.left 0
  let t := max r.top 0
  { left := l, top := t,
    width := min r.width (bound_w - l),
    height := min r.height (bound_h - t) }

/-- `ZoomRatioMapper::ConvertZoomRatio` (lines 247–274): the rounding
step followed, when `zoom_ratio >= 1.0f`, by the boundary correction. -/
def ConvertZoomRatio (zoom_ratio : ℚ) (r : RectLTWH) (d : Dimension) : RectLTWH :=
  let r2 := convertZoomRatioRaw zoom_ratio r d
  if 1 ≤ zoom_ratio then correctRegionBoundary r2 d.width d.height else r2

/-- Modelled from the spec: `utils::RevertZoomRatio` (rect overload) is
called on the result path but its body (common/hal/utils/utils.cc) is
not among the provided sources.  The spec gives the exact algebraic
inverse of the forward per-axis formula:
`left = round((left' - 0.5*activeWidth*(1-1/zoomRatio)) * zoomRatio)`,
symmetric for top, and width/height scale by `zoomRatio`; no boundary
correction on the backward path. -/
def RevertZoomRatio (zoom_ratio : ℚ) (r : RectLTWH) (d : Dimension) : RectLTWH where
  left := roundHalfAway
    (((r.left : ℚ) - 1/2 * (d.width : ℚ) * (1 - 1 / zoom_ratio)) * zoom_ratio)
  top := roundHalfAway
    (((r.top : ℚ) - 1/2 * (d.height : ℚ) * (1 - 1 / zoom_ratio)) * zoom_ratio)
  width := roundHalfAway ((r.width : ℚ) * zoom_ratio)
  height := roundHalfAway ((r.height : ℚ) * zoom_ratio)

/-- A point (face landmark coordinate).  In the source the fields are
`uint32_t` filled by casting `int32_t` metadata values; the coordinate
arithmetic is modelled over `ℤ`. -/
structure Point where
  x : ℤ
  y : ℤ
  deriving DecidableEq, Repr

/-- A rectangle in the inclusive left/top/right/bottom form used by
`ANDROID_STATISTICS_FACE_RECTANGLES`. -/
structure Rect where
  left : ℤ
  top : ℤ
  right : ℤ
  bottom : ℤ
  deriving DecidableEq, Repr

/-- A weighted rectangle, the 5-int tuple used by the 3A region tags
(`ANDROID_CONTROL_AE_REGIONS` / `AF_REGIONS` / `AWB_REGIONS`). -/
structure WeightedRect where
  left : ℤ
  top : ℤ
  right : ℤ
  bottom : ℤ
  weight : ℤ
  deriving DecidableEq, Repr

/-- Modelled from the spec: the point overload of
`utils::RevertZoomRatio` used for face landmarks is not among the
provided sources.  The spec: "Backward transform also used for single
points (face landmarks), applying the same left/top formula per
coordinate with width/height terms omitted". -/
def RevertZoomRatioPoint (zoom_ratio : ℚ) (p : Point) (d : Dimension) : Point where
  x := roundHalfAway
    (((p.x : ℚ) - 1/2 * (d.width : ℚ) * (1 - 1 / zoom_ratio)) * zoom_ratio)
  y := roundHalfAway
    (((p.y : ℚ) - 1/2 * (d.height : ℚ) * (1 - 1 / zoom_ratio)) * zoom_ratio)

/-- `ZoomRatioRange` from the HAL types: inclusive bounds on the
supported zoom ratio. -/
structure ZoomRatioRange where
  min : ℚ
  max : ℚ
  deriving DecidableEq, Repr

/-- The range clamp of `ZoomRatioMapper::ApplyZoomRatio`
(zoom_ratio_mapper.cc lines 113–121). -/
def clampZoomRatio (range : ZoomRatioRange) (zoom_ratio : ℚ) : ℚ :=
  if zoom_ratio < range.min then range.min
  else if zoom_ratio > range.max then range.max
  else zoom_ratio

/-- `ANDROID_STATISTICS_FACE_DETECT_MODE_OFF`. -/
def faceDetectModeOff : ℕ := 0

/-- `ANDROID_STATISTICS_FACE_DETECT_MODE_SIMPLE`. -/
def faceDetectModeSimple : ℕ := 1

/-- `ANDROID_STATISTICS_FACE_DETECT_MODE_FULL`. -/
def faceDetectModeFull : ℕ := 2

/-- A metadata bundle (`HalCameraMetadata`), restricted to the tags the
mapper reads or writes.  `none` models a tag whose `Get` fails (absent
field). -/
structure Metadata where
  zoomRatio : Option ℚ
  cropRegion : Option RectLTWH
  aeRegions : Option (List WeightedRect)
  afRegions : Option (List WeightedRect)
  awbRegions : Option (List WeightedRect)
  faceDetectMode : Option ℕ
  faceRectangles : Option (List Rect)
  faceLandmarks : Option (List (Point × Point × Point))
  deriving DecidableEq, Repr

/-- `ZoomRatioMapper::UpdateCropRegion` (lines 153–191): read the crop
region as left/top/width/height, convert (request) or revert (result),
write it back.  An absent or empty entry leaves the metadata
unchanged. -/
def UpdateCropRegion (zoom_ratio : ℚ) (d : Dimension) (is_request : Bool)
    (md : Metadata) : Metadata :=
  match md.cropRegion with
  | none => md
  | some r =>
      let r2 := if is_request then ConvertZoomRatio zoom_ratio r d
                else RevertZoomRatio zoom_ratio r d
      { md with cropRegion := some r2 }

/-- The per-element body of `ZoomRatioMapper::Update3ARegion`
(lines 214–232): decode the inclusive-bounds tuple into
left/top/width/height, convert or revert, re-encode; the weight is
copied through. -/
def transformWeightedRect (zoom_ratio : ℚ) (d : Dimension) (is_request : Bool)
    (w : WeightedRect) : WeightedRect :=
  let r0 : RectLTWH := ⟨w.left, w.top, w.right - w.left + 1, w.bottom - w.top + 1⟩
  let r := if is_request then ConvertZoomRatio zoom_ratio r0 d
           else RevertZoomRatio zoom_ratio r0 d
  ⟨r.left, r.top, r.left + r.width - 1, r.top + r.height - 1, w.weight⟩

/-- `ZoomRatioMapper::Update3ARegion` (lines 193–245) acting on one 3A
region field: an absent entry is left unchanged, otherwise every
element is transformed and the list written back. -/
def update3ARegionList (zoom_ratio : ℚ) (d : Dimension) (is_request : Bool) :
    Option (List WeightedRect) → Option (List WeightedRect) :=
  Option.map (List.map (transformWeightedRect zoom_ratio d is_request))

/-- The per-element body of `ZoomRatioMapper::UpdateFaceRectangles`
(lines 297–309): decode inclusive bounds, revert, re-encode. -/
def revertFaceRect (zoom_ratio : ℚ) (d : Dimension) (w : Rect) : Rect :=
  let r0 : RectLTWH := ⟨w.left, w.top, w.right - w.left + 1, w.bottom - w.top + 1⟩
  let r := RevertZoomRatio zoom_ratio r0 d
  ⟨r.left, r.top, r.left + r.width - 1, r.top + r.height - 1⟩

/-- `ZoomRatioMapper::UpdateFaceRectangles` (lines 276–325): absent
face-rectangle entry leaves the metadata unchanged, otherwise every
rectangle is reverted. -/
def UpdateFaceRectangles (zoom_ratio : ℚ) (d : Dimension) (md : Metadata) :
    Metadata :=
  match md.faceRectangles with
  | none => md
  | some rs =>
      { md with faceRectangles := some (rs.map (revertFaceRect zoom_ratio d)) }

/-- One face landmark triple (left eye, right eye, mouth) reverted, the
loop body of `ZoomRatioMapper::UpdateFaceLandmarks` (lines 351–376). -/
def revertLandmark (zoom_ratio : ℚ) (d : Dimension)
    (lm : Point × Point × Point) : Point × Point × Point :=
  (RevertZoomRatioPoint zoom_ratio lm.1 d,
   RevertZoomRatioPoint zoom_ratio lm.2.1 d,
   RevertZoomRatioPoint zoom_ratio lm.2.2 d)

/-- `ZoomRatioMapper::UpdateFaceLandmarks` (lines 327–387): absent
landmark entry leaves the metadata unchanged; otherwise every face's
three points are reverted and all faces are written back
(`num_visible_faces` always ends equal to `num_faces`). -/
def UpdateFaceLandmarks (zoom_ratio : ℚ) (d : Dimension) (md : Metadata) :
    Metadata :=
  match md.faceLandmarks with
  | none => md
  | some ls =>
      { md with faceLandmarks := some (ls.map (revertLandmark zoom_ratio d)) }

/-- The body of `ZoomRatioMapper::ApplyZoomRatio` after the zoom ratio
has been read and clamped (lines 123–150): update the crop region and
the three 3A regions, then on the result path gate the face updates on
the face-detection mode (FULL falls through to SIMPLE, so FULL updates
landmarks then rectangles; an unreadable mode skips the face updates). -/
def applyZoomRatioClamped (zoom_ratio : ℚ) (md : Metadata) (d : Dimension)
    (is_request : Bool) : Metadata :=
  let md1 := UpdateCropRegion zoom_ratio d is_request md
  let md2 := { md1 with
    aeRegions := update3ARegionList zoom_ratio d is_request md1.aeRegions }
  let md3 := { md2 with
    afRegions := update3ARegionList zoom_ratio d is_request md2.afRegions }
  let md4 := { md3 with
    awbRegions := update3ARegionList zoom_ratio d is_request md3.awbRegions }
  if is_request then md4
  else
    match md4.faceDetectMode with
    | none => md4
    | some mode =>
        if mode = faceDetectModeFull then
          UpdateFaceRectangles zoom_ratio d (UpdateFaceLandmarks zoom_ratio d md4)
        else if mode = faceDetectModeSimple then
          UpdateFaceRectangles zoom_ratio d md4
        else md4

/-- `ZoomRatioMapper::ApplyZoomRatio` (lines 97–151): read the zoom
ratio (absent ⇒ no change), clamp it into the configured range, then
run the clamped body. -/
def ApplyZoomRatio (range : ZoomRatioRange) (md : Metadata) (d : Dimension)
    (is_request : Bool) : Metadata :=
  match md.zoomRatio with
  | none => md
  | some z => applyZoomRatioClamped (clampZoomRatio range z) md d is_request

/-- A capture request, restricted to the fields the mapper touches. -/
structure CaptureRequest where
  settings : Option Metadata
  physical_camera_settings : List (ℕ × Option Metadata)
  deriving DecidableEq, Repr

/-- A capture result, restricted to the fields the mapper touches. -/
structure CaptureResult where
  result_metadata : Option Metadata
  physical_metadata : List (ℕ × Option Metadata)
  deriving DecidableEq, Repr

/-- The engine state captured by `ZoomRatioMapper::Initialize`
(lines 26–34). -/
structure ZoomRatioMapper where
  active_array_dimension : Dimension
  physical_cam_active_array_dimension : List (ℕ × Dimension)
  zoom_ratio_range : ZoomRatioRange
  is_zoom_ratio_supported : Bool
  deriving DecidableEq, Repr

/-- `std::unordered_map::find` on the physical-camera dimension map. -/
def lookupDimension (phys : List (ℕ × Dimension)) (camera_id : ℕ) :
    Option Dimension :=
  (phys.find? (fun p => p.1 = camera_id)).map (·.2)

/-- How one physical-camera entry is processed by the loops of
`UpdateCaptureRequest` / `UpdateCaptureResult` (lines 51–63 and 82–94):
null metadata or an unknown camera id is skipped, otherwise the
metadata is transformed with that camera's own dimension. -/
def processPhysicalEntry (m : ZoomRatioMapper) (is_request : Bool)
    (p : ℕ × Option Metadata) : ℕ × Option Metadata :=
  match p.2 with
  | none => p
  | some md =>
      match lookupDimension m.physical_cam_active_array_dimension p.1 with
      | none => p
      | some d =>
          (p.1, some (ApplyZoomRatio m.zoom_ratio_range md d is_request))

/-- `ZoomRatioMapper::UpdateCaptureRequest` (lines 36–64).  The `none`
input models the `request == nullptr` early return; a disabled mapper
leaves the request untouched. -/
def UpdateCaptureRequest (m : ZoomRatioMapper) :
    Option CaptureRequest → Option CaptureRequest
  | none => none
  | some req =>
      if !m.is_zoom_ratio_supported then some req
      else some
        { settings := req.settings.map
            (fun md => ApplyZoomRatio m.zoom_ratio_range md
              m.active_array_dimension true),
          physical_camera_settings :=
            req.physical_camera_settings.map (processPhysicalEntry m true) }

/-- `ZoomRatioMapper::UpdateCaptureResult` (lines 66–95), symmetric to
the request path with the backward direction. -/
def UpdateCaptureResult (m : ZoomRatioMapper) :
    Option CaptureResult → Option CaptureResult
  | none => none
  | some res =>
      if !m.is_zoom_ratio_supported then some res
      else some
        { result_metadata := res.result_metadata.map
            (fun md => ApplyZoomRatio m.zoom_ratio_range md
              m.active_array_dimension false),
          physical_metadata :=
            res.physical_metadata.map (processPhysicalEntry m false) }

end GoogleCameraHal

namespace GoogleCameraHal

/-! ## Basic facts about `roundHalfAway` -/

theorem roundHalfAway_intCast (n : ℤ) : roundHalfAway (n : ℚ) = n := by
  unfold roundHalfAway
  by_cases h : (0:ℚ) ≤ (n:ℚ)
  · rw [if_pos h, show (n:ℚ) + 1/2 = 1/2 + ((n:ℤ):ℚ) by ring,
      Int.floor_add_int]
    norm_num
  · rw [if_neg h, show (n:ℚ) - 1/2 = -(1/2) + ((n:ℤ):ℚ) by ring,
      Int.ceil_add_int]
    norm_num

theorem abs_roundHalfAway_sub_le (q : ℚ) : |(roundHalfAway q : ℚ) - q| ≤ 1/2 := by
  unfold roundHalfAway
  by_cases h : (0:ℚ) ≤ q
  · rw [if_pos h, abs_le]
    constructor
    · have := Int.lt_floor_add_one (q + 1/2)
      push_cast at this ⊢
      linarith
    · have := Int.floor_le (q + 1/2)
      push_cast at this ⊢
      linarith
  · rw [if_neg h, abs_le]
    constructor
    · have := Int.le_ceil (q - 1/2)
      push_cast at this ⊢
      linarith
    · have := Int.ceil_lt_add_one (q - 1/2)
      push_cast at this ⊢
      linarith

theorem roundHalfAway_nonneg (q : ℚ) (h : 0 ≤ q) : 0 ≤ roundHalfAway q := by
  unfold roundHalfAway
  rw [if_pos h]
  rw [Int.le_floor]
  push_cast
  linarith

theorem roundHalfAway_one_le (q : ℚ) (h : 1/2 ≤ q) : 1 ≤ roundHalfAway q := by
  unfold roundHalfAway
  rw [if_pos (by linarith)]
  rw [Int.le_floor]
  push_cast
  linarith

/-! ## Per-axis facts about the forward/backward transforms -/

/-- The recentering offset for one axis.  With `c := axisOffset L z`,
the forward per-axis map is `round(v/z + c)` and the backward one is
`round((v' - c) * z)`. -/
def axisOffset (len : ℤ) (zoom_ratio : ℚ) : ℚ :=
  1/2 * (len : ℚ) * (1 - 1 / zoom_ratio)

theorem axisOffset_nonneg (len : ℤ) (z : ℚ) (hz : 1 ≤ z) (hW : 0 ≤ len) :
    0 ≤ axisOffset len z := by
  have h0 : (0:ℚ) < z := lt_of_lt_of_le one_pos hz
  have h1 : 1 / z ≤ 1 := by
    rw [div_le_one h0]; exact hz
  unfold axisOffset
  have : (0:ℚ) ≤ (len:ℚ) := by exact_mod_cast hW
  nlinarith

/-- For a nonnegative coordinate, the forward per-axis value is
nonnegative when `zoomRatio ≥ 1`. -/
theorem round_axis_nonneg (a len : ℤ) (z : ℚ) (ha : 0 ≤ a) (hz : 1 ≤ z)
    (hW : 0 ≤ len) :
    0 ≤ roundHalfAway ((a : ℚ) / z + axisOffset len z) := by
  have h0 : (0:ℚ) < z := lt_of_lt_of_le one_pos hz
  apply roundHalfAway_nonneg
  have h1 : 0 ≤ (a:ℚ)/z := by positivity
  have h2 := axisOffset_nonneg len z hz hW
  linarith

/-- For an in-bounds coordinate pair, the forward per-axis values of
position and size sum to at most the bound: the boundary correction is
never needed on in-bounds input. -/
theorem round_axis_sum_le (a w len : ℤ) (z : ℚ) (ha : 0 ≤ a) (hw : 0 ≤ w)
    (hs : a + w ≤ len) (hz : 1 ≤ z) (hW : 1 ≤ len) :
    roundHalfAway ((a : ℚ) / z + axisOffset len z) +
      roundHalfAway ((w : ℚ) / z) ≤ len := by
  have h0 : (0:ℚ) < z := lt_of_lt_of_le one_pos hz
  rcases eq_or_lt_of_le hz with h1 | h1
  · -- `z = 1`: everything is exact
    subst h1
    have e1 : (a : ℚ) / 1 + axisOffset len 1 = (a : ℚ) := by
      unfold axisOffset; norm_num
    have e2 : (w : ℚ) / 1 = (w : ℚ) := by norm_num
    rw [e1, e2, roundHalfAway_intCast, roundHalfAway_intCast]
    exact hs
  · -- `z > 1`: the two values sum to strictly less than `len + 1`
    set x := (a : ℚ) / z + axisOffset len z with hx
    set y := (w : ℚ) / z with hy
    clear_value x y
    have hx0 : 0 ≤ x := by
      have h2 := axisOffset_nonneg len z hz (by linarith)
      have h3 : 0 ≤ (a:ℚ)/z := by positivity
      rw [hx]; linarith
    have hy0 : 0 ≤ y := by rw [hy]; positivity
    have hxy : x + y < (len : ℚ) := by
      have hlen0 : (0:ℚ) < (len:ℚ) := by exact_mod_cast lt_of_lt_of_le one_pos hW
      have hinv0 : (0:ℚ) < z⁻¹ := by positivity
      have hle : ((a:ℚ) + (w:ℚ)) ≤ (len:ℚ) := by exact_mod_cast hs
      have hmul : ((a:ℚ) + (w:ℚ)) * z⁻¹ ≤ (len:ℚ) * z⁻¹ :=
        mul_le_mul_of_nonneg_right hle hinv0.le
      have hself : (len:ℚ) * z⁻¹ < (len:ℚ) := by
        have := div_lt_self hlen0 h1
        rwa [div_eq_mul_inv] at this
      rw [hx, hy]
      unfold axisOffset
      have e : (a:ℚ)/z + 1/2 * (len:ℚ) * (1 - 1/z) + (w:ℚ)/z =
          ((a:ℚ) + (w:ℚ)) * z⁻¹ + 1/2 * (len:ℚ) - 1/2 * ((len:ℚ) * z⁻¹) := by
        field_simp
        ring
      rw [e]
      linarith
    have hrx : (roundHalfAway x : ℚ) ≤ x + 1/2 := by
      unfold roundHalfAway
      rw [if_pos hx0]
      exact_mod_cast Int.floor_le (x + 1/2)
    have hry : (roundHalfAway y : ℚ) ≤ y + 1/2 := by
      unfold roundHalfAway
      rw [if_pos hy0]
      exact_mod_cast Int.floor_le (y + 1/2)
    have hsum : ((roundHalfAway x + roundHalfAway y : ℤ) : ℚ) < ((len + 1 : ℤ) : ℚ) := by
      push_cast
      linarith
    have : roundHalfAway x + roundHalfAway y < len + 1 := by exact_mod_cast hsum
    omega

/-- One axis of the forward-then-backward composition lands within one
pixel of the original coordinate, for any recentering offset `c`, as
long as `0 < zoomRatio < 3`. -/
theorem round_roundtrip_axis (a : ℤ) (c z : ℚ) (h0 : 0 < z) (h3 : z < 3) :
    |roundHalfAway (((roundHalfAway ((a : ℚ) / z + c) : ℚ) - c) * z) - a| ≤ 1 := by
  have hzne : z ≠ 0 := ne_of_gt h0
  set x := (a : ℚ) / z + c with hx
  set L := roundHalfAway x with hL
  have h1 : |(L : ℚ) - x| ≤ 1/2 := abs_roundHalfAway_sub_le x
  set y := ((L : ℚ) - c) * z with hy
  set R := roundHalfAway y with hR
  have h2 : |(R : ℚ) - y| ≤ 1/2 := abs_roundHalfAway_sub_le y
  have h4 : y - (a : ℚ) = ((L : ℚ) - x) * z := by
    rw [hy, hx]
    field_simp
    ring
  have h5 : |y - (a : ℚ)| ≤ z/2 := by
    rw [h4, abs_mul, abs_of_pos h0]
    have := abs_nonneg ((L : ℚ) - x)
    nlinarith
  have h6 : |(R : ℚ) - (a : ℚ)| < 2 := by
    have htri : |(R : ℚ) - (a : ℚ)| ≤ |(R : ℚ) - y| + |y - (a : ℚ)| := by
      have := abs_add ((R : ℚ) - y) (y - (a : ℚ))
      simpa using this
    linarith
  have h7 : |R - a| < 2 := by
    have : |((R - a : ℤ) : ℚ)| < 2 := by push_cast; exact h6
    exact_mod_cast this
  omega

/-- On in-bounds input with `zoomRatio ≥ 1`, the boundary correction
inside `ConvertZoomRatio` changes nothing. -/
theorem convert_eq_raw_of_inBounds (z : ℚ) (r : RectLTWH) (d : Dimension)
    (hz : 1 ≤ z) (hW : 1 ≤ d.width) (hH : 1 ≤ d.height)
    (hl : 0 ≤ r.left) (ht : 0 ≤ r.top) (hw : 0 ≤ r.width) (hh : 0 ≤ r.height)
    (hlw : r.left + r.width ≤ d.width) (hth : r.top + r.height ≤ d.height) :
    ConvertZoomRatio z r d = convertZoomRatioRaw z r d := by
  have hL := round_axis_nonneg r.left d.width z hl hz (by omega)
  have hT := round_axis_nonneg r.top d.height z ht hz (by omega)
  have hLW := round_axis_sum_le r.left r.width d.width z hl hw hlw hz hW
  have hTH := round_axis_sum_le r.top r.height d.height z ht hh hth hz hH
  unfold axisOffset at hL hT hLW hTH
  simp only [ConvertZoomRatio, if_pos hz, correctRegionBoundary,
    convertZoomRatioRaw] at hL hT hLW hTH ⊢
  refine RectLTWH.mk.injEq .. ▸ ?_
  exact ⟨by omega, by omega, by omega, by omega⟩

end GoogleCameraHal

namespace GoogleCameraHal

/-! ## Claims about the geometric transforms -/

/-- The forward per-axis formula as written in the spec (§4.1
GeometryMath): `left' = round(left/zoomRatio +
0.5*activeWidth*(1 - 1/zoomRatio))`, `top'` symmetric with the height,
`width' = round(width/zoomRatio)`, `height' = round(height/zoomRatio)`.
Stated from the spec's words, to be compared with the code-derived
`convertZoomRatioRaw`. -/
def forwardTransformSpec (zoomRatio : ℚ) (r : RectLTWH) (d : Dimension) : RectLTWH where
  left := roundHalfAway ((r.left : ℚ) / zoomRatio +
    0.5 * (d.width : ℚ) * (1 - 1 / zoomRatio))
  top := roundHalfAway ((r.top : ℚ) / zoomRatio +
    0.5 * (d.height : ℚ) * (1 - 1 / zoomRatio))
  width := roundHalfAway ((r.width : ℚ) / zoomRatio)
  height := roundHalfAway ((r.height : ℚ) / zoomRatio)

/-- C2: for every input rectangle and positive zoom ratio the rounding
step of the forward transform computes exactly the spec's four
formulas, and on the concrete example (activeArrayDim = {4000, 3000},
zoomRatio = 2, crop {0, 0, 4000, 3000}) the full forward transform
returns {1000, 750, 2000, 1500}. -/
theorem convert_matches_formula_and_example (z : ℚ) (r : RectLTWH)
    (d : Dimension) (h0 : 0 < z) :
    convertZoomRatioRaw z r d = forwardTransformSpec z r d ∧
    ConvertZoomRatio 2 ⟨0, 0, 4000, 3000⟩ ⟨4000, 3000⟩ =
      ⟨1000, 750, 2000, 1500⟩ := by
  constructor
  · norm_num [convertZoomRatioRaw, forwardTransformSpec]
  · norm_num [ConvertZoomRatio, convertZoomRatioRaw, correctRegionBoundary,
      roundHalfAway]

/-- C2 witness: the theorem applied at zoomRatio 2 on the concrete
example rectangle. -/
theorem convert_matches_formula_witness :
    (0:ℚ) < 2 ∧
    (convertZoomRatioRaw 2 ⟨0, 0, 4000, 3000⟩ ⟨4000, 3000⟩ =
        forwardTransformSpec 2 ⟨0, 0, 4000, 3000⟩ ⟨4000, 3000⟩ ∧
      ConvertZoomRatio 2 ⟨0, 0, 4000, 3000⟩ ⟨4000, 3000⟩ =
        ⟨1000, 750, 2000, 1500⟩) :=
  ⟨by norm_num,
   convert_matches_formula_and_example 2 ⟨0, 0, 4000, 3000⟩ ⟨4000, 3000⟩
     (by norm_num)⟩

/-- C3: for any input rectangle and any zoom ratio ≥ 1, the forward
transform returns a rectangle with left ≥ 0, top ≥ 0,
left + width ≤ activeWidth and top + height ≤ activeHeight. -/
theorem convert_boundary_clamp (z : ℚ) (r : RectLTWH) (d : Dimension)
    (hz : 1 ≤ z) :
    0 ≤ (ConvertZoomRatio z r d).left ∧ 0 ≤ (ConvertZoomRatio z r d).top ∧
    (ConvertZoomRatio z r d).left + (ConvertZoomRatio z r d).width ≤ d.width ∧
    (ConvertZoomRatio z r d).top + (ConvertZoomRatio z r d).height ≤ d.height := by
  simp only [ConvertZoomRatio, if_pos hz, correctRegionBoundary]
  refine ⟨?_, ?_, ?_, ?_⟩ <;> omega

/-- C3 witness: the clamp property evaluated at zoomRatio 2 on a
deliberately out-of-bounds rectangle. -/
theorem convert_boundary_clamp_witness :
    0 ≤ (ConvertZoomRatio 2 ⟨-100, -100, 9999, 9999⟩ ⟨4000, 3000⟩).left ∧
    0 ≤ (ConvertZoomRatio 2 ⟨-100, -100, 9999, 9999⟩ ⟨4000, 3000⟩).top ∧
    (ConvertZoomRatio 2 ⟨-100, -100, 9999, 9999⟩ ⟨4000, 3000⟩).left +
      (ConvertZoomRatio 2 ⟨-100, -100, 9999, 9999⟩ ⟨4000, 3000⟩).width ≤ 4000 ∧
    (ConvertZoomRatio 2 ⟨-100, -100, 9999, 9999⟩ ⟨4000, 3000⟩).top +
      (ConvertZoomRatio 2 ⟨-100, -100, 9999, 9999⟩ ⟨4000, 3000⟩).height ≤ 3000 :=
  convert_boundary_clamp 2 ⟨-100, -100, 9999, 9999⟩ ⟨4000, 3000⟩ (by norm_num)

/-- C4 counterexample: at zoomRatio exactly 1 the boundary correction
still runs, so a rectangle protruding past the left edge is NOT
returned unchanged: {-5, 0, 10, 10} becomes {0, 0, 10, 10}. -/
theorem identity_at_zoom_one_counterexample :
    ConvertZoomRatio 1 ⟨-5, 0, 10, 10⟩ ⟨100, 100⟩ = ⟨0, 0, 10, 10⟩ ∧
    ConvertZoomRatio 1 ⟨-5, 0, 10, 10⟩ ⟨100, 100⟩ ≠ ⟨-5, 0, 10, 10⟩ := by
  have h : ConvertZoomRatio 1 ⟨-5, 0, 10, 10⟩ ⟨100, 100⟩ = ⟨0, 0, 10, 10⟩ := by
    have hceil : ⌈(-(11/2) : ℚ)⌉ = (-5 : ℤ) := by
      rw [Int.ceil_eq_iff] <;> norm_num
    norm_num [ConvertZoomRatio, convertZoomRatioRaw, correctRegionBoundary,
      roundHalfAway, hceil]
  exact ⟨h, by rw [h]; decide⟩

/-- C4 (amended): at zoomRatio exactly 1 the forward transform is the
exact identity on every rectangle lying within the active array, and
the backward transform is the exact identity on every rectangle. -/
theorem identity_at_zoom_one (r : RectLTWH) (d : Dimension)
    (hl : 0 ≤ r.left) (ht : 0 ≤ r.top)
    (hlw : r.left + r.width ≤ d.width) (hth : r.top + r.height ≤ d.height) :
    ConvertZoomRatio 1 r d = r ∧
    ∀ r' : RectLTWH, RevertZoomRatio 1 r' d = r' := by
  obtain ⟨l, t, w, h⟩ := r
  simp only at hl ht hlw hth
  constructor
  · have hraw : convertZoomRatioRaw 1 ⟨l, t, w, h⟩ d = ⟨l, t, w, h⟩ := by
      simp [convertZoomRatioRaw, roundHalfAway_intCast]
    simp only [ConvertZoomRatio, if_pos le_rfl, hraw, correctRegionBoundary]
    simp only [RectLTWH.mk.injEq]
    refine ⟨?_, ?_, ?_, ?_⟩ <;> omega
  · intro r'
    obtain ⟨a, b, c, e⟩ := r'
    simp [RevertZoomRatio, roundHalfAway_intCast]

/-- C4 witness: the amended identity evaluated on the in-bounds
rectangle {10, 20, 50, 60} in a 100×100 array. -/
theorem identity_at_zoom_one_witness :
    ConvertZoomRatio 1 ⟨10, 20, 50, 60⟩ ⟨100, 100⟩ = ⟨10, 20, 50, 60⟩ ∧
    ∀ r' : RectLTWH, RevertZoomRatio 1 r' ⟨100, 100⟩ = r' :=
  identity_at_zoom_one ⟨10, 20, 50, 60⟩ ⟨100, 100⟩ (by norm_num) (by norm_num)
    (by norm_num) (by norm_num)

end GoogleCameraHal

namespace GoogleCameraHal

/-- C10 counterexample, one failing input per restriction the
amendment introduces.  (i) zoomRatio 8 lies in the configured range
[1, 8] and the crop {0, 0, 1, 1} has width = height = 1, yet the
forward transform rounds width/zoomRatio = 1/8 down to 0.  (ii) even
with zoomRatio ≤ 2·width (z = 1, width = 1), the out-of-bounds
rectangle {4000, 0, 1, 1} in a 4000×3000 array has its width
boundary-clamped to 0, so the forward guarantee needs the in-bounds
hypothesis.  (iii) with the range [1/4, 8] (min ≤ max, both positive,
as the data model allows), the in-range zoomRatio 1/4 rounds the
backward width 1·(1/4) down to 0, so the backward guarantee needs
zoomRatio ≥ 1/2. -/
theorem transform_size_counterexample :
    ((1:ℚ) ≤ 8 ∧ (8:ℚ) ≤ 8 ∧
      (ConvertZoomRatio 8 ⟨0, 0, 1, 1⟩ ⟨4000, 3000⟩).width = 0) ∧
    ((1:ℚ) ≤ 1 ∧ (1:ℚ) ≤ 8 ∧ (1:ℚ) ≤ 2 * ((1:ℤ):ℚ) ∧
      (ConvertZoomRatio 1 ⟨4000, 0, 1, 1⟩ ⟨4000, 3000⟩).width = 0) ∧
    ((1/4:ℚ) ≤ 1/4 ∧ (1/4:ℚ) ≤ 8 ∧
      (RevertZoomRatio (1/4) ⟨0, 0, 1, 1⟩ ⟨4000, 3000⟩).width = 0) := by
  refine ⟨⟨by norm_num, by norm_num, ?_⟩,
    ⟨by norm_num, by norm_num, by norm_num, ?_⟩,
    ⟨by norm_num, by norm_num, ?_⟩⟩
  · norm_num [ConvertZoomRatio, convertZoomRatioRaw, correctRegionBoundary,
      roundHalfAway]
  · norm_num [ConvertZoomRatio, convertZoomRatioRaw, correctRegionBoundary,
      roundHalfAway]
  · norm_num [RevertZoomRatio, roundHalfAway]

/-- C10 (amended): the backward transform keeps width, height ≥ 1 for
every zoomRatio ≥ 1/2 and input sizes ≥ 1 (below 1/2 the rounding can
reach 0, counterexample iii); the forward transform keeps
width, height ≥ 1 for every positive zoomRatio provided
zoomRatio ≤ 2·width and zoomRatio ≤ 2·height (counterexample i) and
the input rectangle lies within the positive active array
(counterexample ii — the boundary correction can clamp an
out-of-bounds rectangle's size to 0). -/
theorem transform_size_positivity (z : ℚ) (r : RectLTWH) (d : Dimension) :
    (1/2 ≤ z → 1 ≤ r.width → 1 ≤ r.height →
      1 ≤ (RevertZoomRatio z r d).width ∧ 1 ≤ (RevertZoomRatio z r d).height) ∧
    (0 < z → z ≤ 2 * (r.width : ℚ) → z ≤ 2 * (r.height : ℚ) →
      1 ≤ d.width → 1 ≤ d.height → 0 ≤ r.left → 0 ≤ r.top →
      r.left + r.width ≤ d.width → r.top + r.height ≤ d.height →
      1 ≤ (ConvertZoomRatio z r d).width ∧ 1 ≤ (ConvertZoomRatio z r d).height) := by
  constructor
  · intro hz hw hh
    have hwq : (1:ℚ) ≤ (r.width : ℚ) := by exact_mod_cast hw
    have hhq : (1:ℚ) ≤ (r.height : ℚ) := by exact_mod_cast hh
    constructor
    · apply roundHalfAway_one_le
      nlinarith
    · apply roundHalfAway_one_le
      nlinarith
  · intro h0 h2w h2h hW hH hl ht hlw hth
    have hw : 0 ≤ r.width := by
      by_contra hcon
      push_neg at hcon
      have : (r.width : ℚ) ≤ 0 := by exact_mod_cast le_of_lt hcon
      linarith
    have hh : 0 ≤ r.height := by
      by_contra hcon
      push_neg at hcon
      have : (r.height : ℚ) ≤ 0 := by exact_mod_cast le_of_lt hcon
      linarith
    have hconv : ConvertZoomRatio z r d = convertZoomRatioRaw z r d := by
      by_cases hz1 : 1 ≤ z
      · exact convert_eq_raw_of_inBounds z r d hz1 hW hH hl ht hw hh hlw hth
      · simp [ConvertZoomRatio, hz1]
    rw [hconv]
    constructor
    · apply roundHalfAway_one_le
      rw [le_div_iff₀ h0]
      linarith
    · apply roundHalfAway_one_le
      rw [le_div_iff₀ h0]
      linarith

/-- C10 witness: the backward guarantee evaluated at zoomRatio 2 and at
zoomRatio 1/2 (the sub-unit regime), and the forward guarantee at
zoomRatio 2, all on the crop {0, 0, 4000, 3000} in a 4000×3000
array. -/
theorem transform_size_positivity_witness :
    ((1/2:ℚ) ≤ 2 ∧
      (1 ≤ (RevertZoomRatio 2 ⟨0, 0, 4000, 3000⟩ ⟨4000, 3000⟩).width ∧
       1 ≤ (RevertZoomRatio 2 ⟨0, 0, 4000, 3000⟩ ⟨4000, 3000⟩).height)) ∧
    (1 ≤ (RevertZoomRatio (1/2) ⟨0, 0, 4000, 3000⟩ ⟨4000, 3000⟩).width ∧
     1 ≤ (RevertZoomRatio (1/2) ⟨0, 0, 4000, 3000⟩ ⟨4000, 3000⟩).height) ∧
    (1 ≤ (ConvertZoomRatio 2 ⟨0, 0, 4000, 3000⟩ ⟨4000, 3000⟩).width ∧
     1 ≤ (ConvertZoomRatio 2 ⟨0, 0, 4000, 3000⟩ ⟨4000, 3000⟩).height) :=
  ⟨⟨by norm_num,
    (transform_size_positivity 2 ⟨0, 0, 4000, 3000⟩ ⟨4000, 3000⟩).1
      (by norm_num) (by norm_num) (by norm_num)⟩,
   (transform_size_positivity (1/2) ⟨0, 0, 4000, 3000⟩ ⟨4000, 3000⟩).1
     (by norm_num) (by norm_num) (by norm_num),
   (transform_size_positivity 2 ⟨0, 0, 4000, 3000⟩ ⟨4000, 3000⟩).2
     (by norm_num) (by norm_num) (by norm_num) (by norm_num) (by norm_num)
     (by norm_num) (by norm_num) (by norm_num) (by norm_num)⟩

/-- C1 counterexample: with configured range [1, 8], zoomRatio 4 is in
range and the rectangle {1, 0, 100, 100} lies inside the 4001×3000
active array, yet reverting the converted rectangle yields left = 3,
two pixels away from the original left = 1 — more than the claimed
±1 tolerance. -/
theorem roundTrip_counterexample :
    ((1:ℚ) ≤ 4 ∧ (4:ℚ) ≤ 8) ∧
    (0 ≤ (1:ℤ) ∧ 0 ≤ (0:ℤ) ∧ (1:ℤ) + 100 ≤ 4001 ∧ (0:ℤ) + 100 ≤ 3000) ∧
    RevertZoomRatio 4 (ConvertZoomRatio 4 ⟨1, 0, 100, 100⟩ ⟨4001, 3000⟩)
      ⟨4001, 3000⟩ = ⟨3, 0, 100, 100⟩ ∧
    ¬ |(3:ℤ) - 1| ≤ 1 := by
  refine ⟨⟨by norm_num, by norm_num⟩, ⟨by norm_num, by norm_num, by norm_num, by norm_num⟩, ?_, by decide⟩
  norm_num [ConvertZoomRatio, convertZoomRatioRaw, correctRegionBoundary,
    RevertZoomRatio, roundHalfAway]

/-- C1 (amended): for every rectangle within the active array and every
zoom ratio z with 0 < z < 3 (in particular for any configured range
with max < 3), reverting the converted rectangle differs from the
original by at most 1 in each of the four bounds.  For z ≥ 3 the
rounding error can exceed one pixel, as the counterexample shows. -/
theorem roundTrip_within_one (z : ℚ) (r : RectLTWH) (d : Dimension)
    (h0 : 0 < z) (h3 : z < 3) (hW : 1 ≤ d.width) (hH : 1 ≤ d.height)
    (hl : 0 ≤ r.left) (ht : 0 ≤ r.top) (hw : 0 ≤ r.width) (hh : 0 ≤ r.height)
    (hlw : r.left + r.width ≤ d.width) (hth : r.top + r.height ≤ d.height) :
    |(RevertZoomRatio z (ConvertZoomRatio z r d) d).left - r.left| ≤ 1 ∧
    |(RevertZoomRatio z (ConvertZoomRatio z r d) d).top - r.top| ≤ 1 ∧
    |(RevertZoomRatio z (ConvertZoomRatio z r d) d).width - r.width| ≤ 1 ∧
    |(RevertZoomRatio z (ConvertZoomRatio z r d) d).height - r.height| ≤ 1 := by
  have hconv : ConvertZoomRatio z r d = convertZoomRatioRaw z r d := by
    by_cases hz1 : 1 ≤ z
    · exact convert_eq_raw_of_inBounds z r d hz1 hW hH hl ht hw hh hlw hth
    · simp [ConvertZoomRatio, hz1]
  rw [hconv]
  refine ⟨?_, ?_, ?_, ?_⟩
  · have := round_roundtrip_axis r.left (axisOffset d.width z) z h0 h3
    simpa [RevertZoomRatio, convertZoomRatioRaw, axisOffset] using this
  · have := round_roundtrip_axis r.top (axisOffset d.height z) z h0 h3
    simpa [RevertZoomRatio, convertZoomRatioRaw, axisOffset] using this
  · have := round_roundtrip_axis r.width 0 z h0 h3
    simpa [RevertZoomRatio, convertZoomRatioRaw] using this
  · have := round_roundtrip_axis r.height 0 z h0 h3
    simpa [RevertZoomRatio, convertZoomRatioRaw] using this

/-- C1 witness: the ±1 round trip evaluated at zoomRatio 2 on the full
crop {0, 0, 4000, 3000} in a 4000×3000 array. -/
theorem roundTrip_within_one_witness :
    |(RevertZoomRatio 2 (ConvertZoomRatio 2 ⟨0, 0, 4000, 3000⟩ ⟨4000, 3000⟩)
        ⟨4000, 3000⟩).left - 0| ≤ 1 ∧
    |(RevertZoomRatio 2 (ConvertZoomRatio 2 ⟨0, 0, 4000, 3000⟩ ⟨4000, 3000⟩)
        ⟨4000, 3000⟩).top - 0| ≤ 1 ∧
    |(RevertZoomRatio 2 (ConvertZoomRatio 2 ⟨0, 0, 4000, 3000⟩ ⟨4000, 3000⟩)
        ⟨4000, 3000⟩).width - 4000| ≤ 1 ∧
    |(RevertZoomRatio 2 (ConvertZoomRatio 2 ⟨0, 0, 4000, 3000⟩ ⟨4000, 3000⟩)
        ⟨4000, 3000⟩).height - 3000| ≤ 1 :=
  roundTrip_within_one 2 ⟨0, 0, 4000, 3000⟩ ⟨4000, 3000⟩ (by norm_num)
    (by norm_num) (by norm_num) (by norm_num) (by norm_num) (by norm_num)
    (by norm_num) (by norm_num) (by norm_num) (by norm_num)

end GoogleCameraHal

namespace GoogleCameraHal

/-! ## Field-tracking lemmas for the metadata pipeline -/

@[simp] theorem UpdateCropRegion_cropRegion (z : ℚ) (d : Dimension) (b : Bool)
    (md : Metadata) :
    (UpdateCropRegion z d b md).cropRegion = md.cropRegion.map
      (fun r => if b then ConvertZoomRatio z r d else RevertZoomRatio z r d) := by
  cases h : md.cropRegion <;> simp [UpdateCropRegion, h]

@[simp] theorem UpdateCropRegion_zoomRatio (z : ℚ) (d : Dimension) (b : Bool)
    (md : Metadata) : (UpdateCropRegion z d b md).zoomRatio = md.zoomRatio := by
  cases h : md.cropRegion <;> simp [UpdateCropRegion, h]

@[simp] theorem UpdateCropRegion_aeRegions (z : ℚ) (d : Dimension) (b : Bool)
    (md : Metadata) : (UpdateCropRegion z d b md).aeRegions = md.aeRegions := by
  cases h : md.cropRegion <;> simp [UpdateCropRegion, h]

@[simp] theorem UpdateCropRegion_afRegions (z : ℚ) (d : Dimension) (b : Bool)
    (md : Metadata) : (UpdateCropRegion z d b md).afRegions = md.afRegions := by
  cases h : md.cropRegion <;> simp [UpdateCropRegion, h]

@[simp] theorem UpdateCropRegion_awbRegions (z : ℚ) (d : Dimension) (b : Bool)
    (md : Metadata) : (UpdateCropRegion z d b md).awbRegions = md.awbRegions := by
  cases h : md.cropRegion <;> simp [UpdateCropRegion, h]

@[simp] theorem UpdateCropRegion_faceDetectMode (z : ℚ) (d : Dimension)
    (b : Bool) (md : Metadata) :
    (UpdateCropRegion z d b md).faceDetectMode = md.faceDetectMode := by
  cases h : md.cropRegion <;> simp [UpdateCropRegion, h]

@[simp] theorem UpdateCropRegion_faceRectangles (z : ℚ) (d : Dimension)
    (b : Bool) (md : Metadata) :
    (UpdateCropRegion z d b md).faceRectangles = md.faceRectangles := by
  cases h : md.cropRegion <;> simp [UpdateCropRegion, h]

@[simp] theorem UpdateCropRegion_faceLandmarks (z : ℚ) (d : Dimension)
    (b : Bool) (md : Metadata) :
    (UpdateCropRegion z d b md).faceLandmarks = md.faceLandmarks := by
  cases h : md.cropRegion <;> simp [UpdateCropRegion, h]

@[simp] theorem UpdateFaceRectangles_faceRectangles (z : ℚ) (d : Dimension)
    (md : Metadata) :
    (UpdateFaceRectangles z d md).faceRectangles =
      md.faceRectangles.map (List.map (revertFaceRect z d)) := by
  cases h : md.faceRectangles <;> simp [UpdateFaceRectangles, h]

@[simp] theorem UpdateFaceRectangles_faceLandmarks (z : ℚ) (d : Dimension)
    (md : Metadata) :
    (UpdateFaceRectangles z d md).faceLandmarks = md.faceLandmarks := by
  cases h : md.faceRectangles <;> simp [UpdateFaceRectangles, h]

@[simp] theorem UpdateFaceRectangles_cropRegion (z : ℚ) (d : Dimension)
    (md : Metadata) :
    (UpdateFaceRectangles z d md).cropRegion = md.cropRegion := by
  cases h : md.faceRectangles <;> simp [UpdateFaceRectangles, h]

@[simp] theorem UpdateFaceLandmarks_faceLandmarks (z : ℚ) (d : Dimension)
    (md : Metadata) :
    (UpdateFaceLandmarks z d md).faceLandmarks =
      md.faceLandmarks.map (List.map (revertLandmark z d)) := by
  cases h : md.faceLandmarks <;> simp [UpdateFaceLandmarks, h]

@[simp] theorem UpdateFaceLandmarks_faceRectangles (z : ℚ) (d : Dimension)
    (md : Metadata) :
    (UpdateFaceLandmarks z d md).faceRectangles = md.faceRectangles := by
  cases h : md.faceLandmarks <;> simp [UpdateFaceLandmarks, h]

@[simp] theorem UpdateFaceLandmarks_cropRegion (z : ℚ) (d : Dimension)
    (md : Metadata) :
    (UpdateFaceLandmarks z d md).cropRegion = md.cropRegion := by
  cases h : md.faceLandmarks <;> simp [UpdateFaceLandmarks, h]

end GoogleCameraHal

namespace GoogleCameraHal

/-- C5: the zoom ratio carried by the metadata is clamped to exactly
range.min when below it, to exactly range.max when above it, and used
unmodified when inside the range (boundaries included); the clamped
value is the one every subsequent transform of that bundle uses, and
processing never rejects the bundle (the functions are total). -/
theorem zoom_ratio_range_clamp (range : ZoomRatioRange) (z : ℚ)
    (md : Metadata) (d : Dimension) (b : Bool)
    (hr : range.min ≤ range.max) :
    (z < range.min → clampZoomRatio range z = range.min) ∧
    (range.max < z → clampZoomRatio range z = range.max) ∧
    (range.min ≤ z → z ≤ range.max → clampZoomRatio range z = z) ∧
    (md.zoomRatio = some z →
      ApplyZoomRatio range md d b =
        applyZoomRatioClamped (clampZoomRatio range z) md d b) := by
  refine ⟨?_, ?_, ?_, ?_⟩
  · intro h
    simp [clampZoomRatio, h]
  · intro h
    have h1 : ¬ z < range.min := not_lt.2 (le_trans hr (le_of_lt h))
    simp [clampZoomRatio, h1, h]
  · intro h1 h2
    simp [clampZoomRatio, not_lt.2 h1, not_lt.2 h2]
  · intro h
    simp [ApplyZoomRatio, h]

/-- C5 witness: with range [1, 8], the requested ratios 1/2, 9 and 8
clamp to 1, 8 and 8 respectively, and the clamped value is what
`ApplyZoomRatio` feeds to its body. -/
theorem zoom_ratio_range_clamp_witness :
    clampZoomRatio ⟨1, 8⟩ (1/2) = 1 ∧
    clampZoomRatio ⟨1, 8⟩ 9 = 8 ∧
    clampZoomRatio ⟨1, 8⟩ 8 = 8 ∧
    ApplyZoomRatio ⟨1, 8⟩ ⟨some 2, none, none, none, none, none, none, none⟩
        ⟨4000, 3000⟩ true =
      applyZoomRatioClamped (clampZoomRatio ⟨1, 8⟩ 2)
        ⟨some 2, none, none, none, none, none, none, none⟩ ⟨4000, 3000⟩ true :=
  ⟨(zoom_ratio_range_clamp ⟨1, 8⟩ (1/2)
      ⟨some 2, none, none, none, none, none, none, none⟩ ⟨4000, 3000⟩ true
      (by norm_num)).1 (by norm_num),
   (zoom_ratio_range_clamp ⟨1, 8⟩ 9
      ⟨some 2, none, none, none, none, none, none, none⟩ ⟨4000, 3000⟩ true
      (by norm_num)).2.1 (by norm_num),
   (zoom_ratio_range_clamp ⟨1, 8⟩ 8
      ⟨some 2, none, none, none, none, none, none, none⟩ ⟨4000, 3000⟩ true
      (by norm_num)).2.2.1 (by norm_num) (by norm_num),
   (zoom_ratio_range_clamp ⟨1, 8⟩ 2
      ⟨some 2, none, none, none, none, none, none, none⟩ ⟨4000, 3000⟩ true
      (by norm_num)).2.2.2 rfl⟩

/-- C6: on the request path no face field is modified; on the result
path the face-detection mode gates the face transforms: FULL reverts
landmarks and rectangles, SIMPLE reverts only rectangles and leaves
landmarks untouched, and any other mode (or an unreadable mode) leaves
both untouched. -/
theorem face_mode_gating (range : ZoomRatioRange) (md : Metadata)
    (d : Dimension) (z : ℚ) (hz : md.zoomRatio = some z) :
    ((ApplyZoomRatio range md d true).faceRectangles = md.faceRectangles ∧
     (ApplyZoomRatio range md d true).faceLandmarks = md.faceLandmarks) ∧
    (md.faceDetectMode = some faceDetectModeFull →
      (ApplyZoomRatio range md d false).faceLandmarks =
        md.faceLandmarks.map
          (List.map (revertLandmark (clampZoomRatio range z) d)) ∧
      (ApplyZoomRatio range md d false).faceRectangles =
        md.faceRectangles.map
          (List.map (revertFaceRect (clampZoomRatio range z) d))) ∧
    (md.faceDetectMode = some faceDetectModeSimple →
      (ApplyZoomRatio range md d false).faceRectangles =
        md.faceRectangles.map
          (List.map (revertFaceRect (clampZoomRatio range z) d)) ∧
      (ApplyZoomRatio range md d false).faceLandmarks = md.faceLandmarks) ∧
    (∀ mode, md.faceDetectMode = some mode → mode ≠ faceDetectModeFull →
      mode ≠ faceDetectModeSimple →
      (ApplyZoomRatio range md d false).faceRectangles = md.faceRectangles ∧
      (ApplyZoomRatio range md d false).faceLandmarks = md.faceLandmarks) := by
  refine ⟨?_, ?_, ?_, ?_⟩
  · constructor <;> simp [ApplyZoomRatio, hz, applyZoomRatioClamped]
  · intro hm
    constructor <;>
      simp [ApplyZoomRatio, hz, applyZoomRatioClamped, hm, faceDetectModeFull]
  · intro hm
    constructor <;>
      simp [ApplyZoomRatio, hz, applyZoomRatioClamped, hm, faceDetectModeFull,
        faceDetectModeSimple]
  · intro mode hm h2 h1
    simp only [faceDetectModeFull, faceDetectModeSimple] at h2 h1
    constructor <;>
      simp [ApplyZoomRatio, hz, applyZoomRatioClamped, hm, faceDetectModeFull,
        faceDetectModeSimple, h2, h1]

/-- C6 witness: face-detection-mode SIMPLE with two face rectangles and
no landmarks — only the rectangles are reverted, the landmark field
stays absent. -/
theorem face_mode_gating_witness :
    (ApplyZoomRatio ⟨1, 8⟩
        ⟨some 2, none, none, none, none, some 1,
          some [⟨100, 100, 199, 199⟩, ⟨200, 200, 299, 299⟩], none⟩
        ⟨4000, 3000⟩ false).faceRectangles =
      some ([⟨100, 100, 199, 199⟩, ⟨200, 200, 299, 299⟩].map
        (revertFaceRect (clampZoomRatio ⟨1, 8⟩ 2) ⟨4000, 3000⟩)) ∧
    (ApplyZoomRatio ⟨1, 8⟩
        ⟨some 2, none, none, none, none, some 1,
          some [⟨100, 100, 199, 199⟩, ⟨200, 200, 299, 299⟩], none⟩
        ⟨4000, 3000⟩ false).faceLandmarks = none :=
  (face_mode_gating ⟨1, 8⟩
    ⟨some 2, none, none, none, none, some 1,
      some [⟨100, 100, 199, 199⟩, ⟨200, 200, 299, 299⟩], none⟩
    ⟨4000, 3000⟩ 2 rfl).2.2.1 rfl

/-- C8: a null bundle, a disabled mapper, or an unreadable zoom-ratio
tag each cause an early return that modifies no metadata field. -/
theorem early_return_guards (m : ZoomRatioMapper) (req : CaptureRequest)
    (res : CaptureResult) (range : ZoomRatioRange) (md : Metadata)
    (d : Dimension) (b : Bool) :
    UpdateCaptureRequest m none = none ∧
    UpdateCaptureResult m none = none ∧
    (m.is_zoom_ratio_supported = false →
      UpdateCaptureRequest m (some req) = some req ∧
      UpdateCaptureResult m (some res) = some res) ∧
    (md.zoomRatio = none → ApplyZoomRatio range md d b = md) := by
  refine ⟨rfl, rfl, ?_, ?_⟩
  · intro h
    constructor <;> simp [UpdateCaptureRequest, UpdateCaptureResult, h]
  · intro h
    simp [ApplyZoomRatio, h]

/-- C8 witness: a disabled mapper and a metadata bundle with no zoom
ratio, both left exactly as they were. -/
theorem early_return_guards_witness :
    UpdateCaptureRequest ⟨⟨4000, 3000⟩, [], ⟨1, 8⟩, false⟩ none = none ∧
    UpdateCaptureResult ⟨⟨4000, 3000⟩, [], ⟨1, 8⟩, false⟩ none = none ∧
    (UpdateCaptureRequest ⟨⟨4000, 3000⟩, [], ⟨1, 8⟩, false⟩
        (some ⟨none, []⟩) = some ⟨none, []⟩ ∧
     UpdateCaptureResult ⟨⟨4000, 3000⟩, [], ⟨1, 8⟩, false⟩
        (some ⟨none, []⟩) = some ⟨none, []⟩) ∧
    ApplyZoomRatio ⟨1, 8⟩ ⟨none, none, none, none, none, none, none, none⟩
        ⟨4000, 3000⟩ true =
      ⟨none, none, none, none, none, none, none, none⟩ := by
  obtain ⟨h1, h2, h3, h4⟩ := early_return_guards
    ⟨⟨4000, 3000⟩, [], ⟨1, 8⟩, false⟩ ⟨none, []⟩ ⟨none, []⟩ ⟨1, 8⟩
    ⟨none, none, none, none, none, none, none, none⟩ ⟨4000, 3000⟩ true
  exact ⟨h1, h2, h3 rfl, h4 rfl⟩

/-- C9: an absent auto-focus-region field does not stop the crop region
(or any sibling field) from being transformed, and raises no error:
the crop region is written back transformed while the AF field stays
absent. -/
theorem field_independence (range : ZoomRatioRange) (md : Metadata)
    (d : Dimension) (z : ℚ) (r : RectLTWH)
    (hz : md.zoomRatio = some z) (haf : md.afRegions = none)
    (hc : md.cropRegion = some r) :
    (ApplyZoomRatio range md d true).cropRegion =
      some (ConvertZoomRatio (clampZoomRatio range z) r d) ∧
    (ApplyZoomRatio range md d true).afRegions = none := by
  constructor
  · simp [ApplyZoomRatio, hz, applyZoomRatioClamped, hc]
  · simp [ApplyZoomRatio, hz, applyZoomRatioClamped, haf, update3ARegionList]

/-- C9 witness: crop region present, AF regions absent — the crop is
transformed, the AF field remains absent. -/
theorem field_independence_witness :
    (ApplyZoomRatio ⟨1, 8⟩
        ⟨some 2, some ⟨0, 0, 4000, 3000⟩, none, none, none, none, none, none⟩
        ⟨4000, 3000⟩ true).cropRegion =
      some (ConvertZoomRatio (clampZoomRatio ⟨1, 8⟩ 2) ⟨0, 0, 4000, 3000⟩
        ⟨4000, 3000⟩) ∧
    (ApplyZoomRatio ⟨1, 8⟩
        ⟨some 2, some ⟨0, 0, 4000, 3000⟩, none, none, none, none, none, none⟩
        ⟨4000, 3000⟩ true).afRegions = none :=
  field_independence ⟨1, 8⟩
    ⟨some 2, some ⟨0, 0, 4000, 3000⟩, none, none, none, none, none, none⟩
    ⟨4000, 3000⟩ 2 ⟨0, 0, 4000, 3000⟩ rfl rfl rfl

end GoogleCameraHal

namespace GoogleCameraHal

/-- C7: for request and for result bundles with per-physical-camera
metadata, each physical camera's bundle is transformed with that
camera's own active-array dimension; a physical id absent from the
dimension map is skipped unchanged, while the logical metadata and the
other entries are still processed. -/
theorem physical_camera_isolation (m : ZoomRatioMapper) (req : CaptureRequest)
    (res : CaptureResult) (he : m.is_zoom_ratio_supported = true)
    (i j : ℕ) (hi : i < req.physical_camera_settings.length)
    (hj : j < res.physical_metadata.length) :
    (∃ out : CaptureRequest,
      UpdateCaptureRequest m (some req) = some out ∧
      out.settings = req.settings.map
        (fun md => ApplyZoomRatio m.zoom_ratio_range md
          m.active_array_dimension true) ∧
      ∀ id md, req.physical_camera_settings[i] = (id, some md) →
        (lookupDimension m.physical_cam_active_array_dimension id = none →
          out.physical_camera_settings[i]? = some (id, some md)) ∧
        ∀ dp, lookupDimension m.physical_cam_active_array_dimension id = some dp →
          out.physical_camera_settings[i]? =
            some (id, some (ApplyZoomRatio m.zoom_ratio_range md dp true))) ∧
    (∃ out : CaptureResult,
      UpdateCaptureResult m (some res) = some out ∧
      out.result_metadata = res.result_metadata.map
        (fun md => ApplyZoomRatio m.zoom_ratio_range md
          m.active_array_dimension false) ∧
      ∀ id md, res.physical_metadata[j] = (id, some md) →
        (lookupDimension m.physical_cam_active_array_dimension id = none →
          out.physical_metadata[j]? = some (id, some md)) ∧
        ∀ dp, lookupDimension m.physical_cam_active_array_dimension id = some dp →
          out.physical_metadata[j]? =
            some (id, some (ApplyZoomRatio m.zoom_ratio_range md dp false))) := by
  constructor
  · have hout : UpdateCaptureRequest m (some req) = some
        { settings := req.settings.map
            (fun md => ApplyZoomRatio m.zoom_ratio_range md
              m.active_array_dimension true),
          physical_camera_settings :=
            req.physical_camera_settings.map (processPhysicalEntry m true) } := by
      simp [UpdateCaptureRequest, he]
    refine ⟨_, hout, rfl, ?_⟩
    intro id md hentry
    have hget : (req.physical_camera_settings.map (processPhysicalEntry m true))[i]? =
        some (processPhysicalEntry m true (id, some md)) := by
      rw [List.getElem?_map, List.getElem?_eq_getElem hi, hentry]
      rfl
    constructor
    · intro hnone
      show (req.physical_camera_settings.map (processPhysicalEntry m true))[i]? = _
      rw [hget]
      simp [processPhysicalEntry, hnone]
    · intro dp hdp
      show (req.physical_camera_settings.map (processPhysicalEntry m true))[i]? = _
      rw [hget]
      simp [processPhysicalEntry, hdp]
  · have hout : UpdateCaptureResult m (some res) = some
        { result_metadata := res.result_metadata.map
            (fun md => ApplyZoomRatio m.zoom_ratio_range md
              m.active_array_dimension false),
          physical_metadata :=
            res.physical_metadata.map (processPhysicalEntry m false) } := by
      simp [UpdateCaptureResult, he]
    refine ⟨_, hout, rfl, ?_⟩
    intro id md hentry
    have hget : (res.physical_metadata.map (processPhysicalEntry m false))[j]? =
        some (processPhysicalEntry m false (id, some md)) := by
      rw [List.getElem?_map, List.getElem?_eq_getElem hj, hentry]
      rfl
    constructor
    · intro hnone
      show (res.physical_metadata.map (processPhysicalEntry m false))[j]? = _
      rw [hget]
      simp [processPhysicalEntry, hnone]
    · intro dp hdp
      show (res.physical_metadata.map (processPhysicalEntry m false))[j]? = _
      rw [hget]
      simp [processPhysicalEntry, hdp]

/-- C7 witness: two physical cameras "0" and "1" with distinct
active-array dimensions.  On the request path, entry 0 is transformed
with camera 0's own 1000×800 dimension, not the logical 4000×3000 one;
on the result path, the entry for the unknown camera id 7 is skipped
unchanged. -/
theorem physical_camera_isolation_witness :
    (∃ out : CaptureRequest,
      UpdateCaptureRequest
        ⟨⟨4000, 3000⟩, [(0, ⟨1000, 800⟩), (1, ⟨2000, 1500⟩)], ⟨1, 8⟩, true⟩
        (some ⟨none,
          [(0, some ⟨some 2, none, none, none, none, none, none, none⟩)]⟩) =
        some out ∧
      out.physical_camera_settings[0]? =
        some (0, some (ApplyZoomRatio ⟨1, 8⟩
          ⟨some 2, none, none, none, none, none, none, none⟩ ⟨1000, 800⟩ true))) ∧
    (∃ out : CaptureResult,
      UpdateCaptureResult
        ⟨⟨4000, 3000⟩, [(0, ⟨1000, 800⟩), (1, ⟨2000, 1500⟩)], ⟨1, 8⟩, true⟩
        (some ⟨none,
          [(7, some ⟨some 2, none, none, none, none, none, none, none⟩)]⟩) =
        some out ∧
      out.physical_metadata[0]? =
        some (7, some ⟨some 2, none, none, none, none, none, none, none⟩)) := by
  obtain ⟨⟨out1, h1, _h2, h3⟩, ⟨out2, g1, _g2, g3⟩⟩ := physical_camera_isolation
    ⟨⟨4000, 3000⟩, [(0, ⟨1000, 800⟩), (1, ⟨2000, 1500⟩)], ⟨1, 8⟩, true⟩
    ⟨none, [(0, some ⟨some 2, none, none, none, none, none, none, none⟩)]⟩
    ⟨none, [(7, some ⟨some 2, none, none, none, none, none, none, none⟩)]⟩
    rfl 0 0 (by norm_num) (by norm_num)
  exact ⟨⟨out1, h1,
      (h3 0 ⟨some 2, none, none, none, none, none, none, none⟩ rfl).2
        ⟨1000, 800⟩ rfl⟩,
    ⟨out2, g1,
      (g3 7 ⟨some 2, none, none, none, none, none, none, none⟩ rfl).1 rfl⟩⟩

end GoogleCameraHal
